import Mathlib

/-!
Verification of the SnowboardingExplained pose-service core against its
specification.  The Lean definitions below are shallow embeddings of the
Python source:

* `cam_crop_to_full` — `backend/pose-service/hybrid_pose_detector.py`,
  the crop-space to full-image camera conversion (element-wise form of the
  batched torch code).
* `rotX180` / `rotateMesh` — the fixed 180° rotation about the X axis
  applied to mesh vertices (`mesh_renderer.py`, and the Y/Z flips inside
  `_project_vertices_to_2d`).
* `project_vertex` — `_project_vertices_to_2d` in
  `hybrid_pose_detector.py`, the perspective projection with the 0.01
  depth clamp.
* the output parser (`backend/src/services/pickle_parser.py`),
* the subprocess error classifier and the admission-controller state
  machine (`backend/pose-service/flask_wrapper_minimal_safe.py`),
* the worker argument lists (`track_wrapper.py` and
  `flask_wrapper_minimal_safe.py`).

Machine floating-point values are modelled as rationals; every numeric
claim checked here is an exact formula-level identity, which the rational
model captures faithfully (negation, comparison and the stated formulas
are the object of the claims, not rounding behaviour).
-/

/-- Shallow embedding of `cam_crop_to_full` from
`backend/pose-service/hybrid_pose_detector.py` (element-wise form of the
batched tensor code).  `cam_bbox = (s, tx, ty)`, `box_center = (cx, cy)`,
`img_size = (w, h)`. -/
def cam_crop_to_full (cam_bbox : ℚ × ℚ × ℚ) (box_center : ℚ × ℚ)
    (box_size : ℚ) (img_size : ℚ × ℚ) (focal_length : ℚ) : ℚ × ℚ × ℚ :=
  let img_w := img_size.1
  let img_h := img_size.2
  let cx := box_center.1
  let cy := box_center.2
  let b := box_size
  let w_2 := img_w / 2
  let h_2 := img_h / 2
  let bs := b * cam_bbox.1 + 1 / 1000000000
  let tz := 2 * focal_length / bs
  let tx := (2 * (cx - w_2) / bs) + cam_bbox.2.1
  let ty := (2 * (cy - h_2) / bs) + cam_bbox.2.2
  (tx, ty, tz)

/-- The fixed 180° rotation about the X axis applied to a single vertex:
negate the Y and Z components (`mesh_renderer.py` applies the rotation
matrix `diag(1, -1, -1)`; the projection code flips Y and Z likewise). -/
def rotX180 (v : ℚ × ℚ × ℚ) : ℚ × ℚ × ℚ :=
  (v.1, -v.2.1, -v.2.2)

/-- The mesh-space rotation applied to every vertex of a vertex array. -/
def rotateMesh (vs : List (ℚ × ℚ × ℚ)) : List (ℚ × ℚ × ℚ) :=
  vs.map rotX180

/-- The depth clamp used by `_project_vertices_to_2d`:
`z_cam = np.maximum(-z, 0.01)`. -/
def clampDepth (z : ℚ) : ℚ :=
  max (-z) (1 / 100)

/-- Shallow embedding of `_project_vertices_to_2d` from
`backend/pose-service/hybrid_pose_detector.py`, for one vertex
`v = (x, y, z)`, camera translation `cam_t = (tx, ty, tz)`, focal length
`f` and image size `(w, h)`.  Mirrors the source: `x_cam = x - tx`,
`y_cam = -(y - ty)`, `z_cam = max(-z, 0.01)`,
`x_2d = f * x_cam / z_cam + w/2`, `y_2d = f * y_cam / z_cam + h/2`. -/
def project_vertex (v : ℚ × ℚ × ℚ) (cam_t : ℚ × ℚ × ℚ)
    (f : ℚ) (img_size : ℚ × ℚ) : ℚ × ℚ :=
  let cx := img_size.1 / 2
  let cy := img_size.2 / 2
  let x_cam := v.1 - cam_t.1
  let y_cam := -(v.2.1 - cam_t.2.1)
  let z_cam := clampDepth v.2.2
  (f * x_cam / z_cam + cx, f * y_cam / z_cam + cy)

/-- C1: the crop-to-full camera conversion returns exactly
`[2*(cx - w/2)/(b*s + 1e-9) + tx, 2*(cy - h/2)/(b*s + 1e-9) + ty,
2*f/(b*s + 1e-9)]`, with the `1e-9` epsilon preserved exactly. -/
theorem cam_crop_to_full_formula (s tx ty cx cy b w h f : ℚ) :
    cam_crop_to_full (s, tx, ty) (cx, cy) b (w, h) f =
      (2 * (cx - w / 2) / (b * s + 1 / 1000000000) + tx,
       2 * (cy - h / 2) / (b * s + 1 / 1000000000) + ty,
       2 * f / (b * s + 1 / 1000000000)) := by
  rfl

/-- C8: the mesh-space 180°-X rotation (negate Y and Z of every vertex)
is an involution: applying it twice returns the original vertex array
exactly. -/
theorem rotateMesh_involution (vs : List (ℚ × ℚ × ℚ)) :
    rotateMesh (rotateMesh vs) = vs := by
  simp only [rotateMesh, List.map_map]
  have h : rotX180 ∘ rotX180 = id := by
    funext v
    simp [rotX180]
  simp [h]

/-- C9: the perspective projection is total: the clamped depth is at
least 1/100 (hence never zero, so no division by zero for any input),
and a point whose X and Y coordinates equal the camera translation
projects exactly to the image center `(w/2, h/2)`. -/
theorem project_vertex_total_and_center (z tx ty tz f w h : ℚ) :
    ((1 : ℚ) / 100 ≤ clampDepth z ∧ clampDepth z ≠ 0) ∧
      project_vertex (tx, ty, z) (tx, ty, tz) f (w, h) = (w / 2, h / 2) := by
  have hle : (1 : ℚ) / 100 ≤ clampDepth z := le_max_right _ _
  have hpos : (0 : ℚ) < clampDepth z := lt_of_lt_of_le (by norm_num) hle
  refine ⟨⟨hle, ne_of_gt hpos⟩, ?_⟩
  simp [project_vertex]

/-!
Output parser (`backend/src/services/pickle_parser.py`).

A PHALP frame record is a Python dict with per-field lists indexed by
person (`smpl`, `camera`, `conf`, `tid`, `verts`, `faces`); a record that
is not a dict makes `parse_frame` return `None`.  `dict.get(key, [])`
makes an absent key indistinguishable from an empty list, so the
embedding stores each field as a (possibly empty) list.  The SMPL body
model itself is an external collaborator, so the vertex computation
`compute_smpl_vertices` is a parameter of the embedding (`cv`), as is the
cached `smpl_faces` array (`sf`).
-/

/-- One entry of a frame record's `smpl` list: the three keys the parser
looks for (`global_orient`, `body_pose`, `betas`), each possibly absent. -/
structure SmplEntry where
  global_orient : Option (List ℚ)
  body_pose : Option (List ℚ)
  betas : Option (List ℚ)
deriving DecidableEq

/-- A dict-shaped PHALP frame record, with the per-person field lists the
parser reads via `frame_data.get(key, [])`. -/
structure FrameDict where
  smpl : List SmplEntry
  camera : List (List ℚ)
  conf : List ℚ
  tid : List Int
  verts : List (List (List ℚ))
  faces : List (List (List Int))
deriving DecidableEq

/-- A raw frame record: either a dict or some non-dict value (the parser
only distinguishes these two cases). -/
inductive FrameData where
  | dict (d : FrameDict)
  | other
deriving DecidableEq

/-- The `camera` sub-object built for a person (`tx`, `ty`, `tz`,
`focalLength: 5000.0`). -/
structure CamObj where
  tx : ℚ
  ty : ℚ
  tz : ℚ
  focalLength : ℚ
deriving DecidableEq

/-- One parsed person entry (`person_obj` in `parse_frame`). -/
structure PersonObj where
  personId : Int
  confidence : ℚ
  tracked : Bool
  camera : Option CamObj
  smplData : Option SmplEntry
  meshVertices : Option (List (List ℚ))
  meshFaces : Option (List (List Int))
deriving DecidableEq

/-- One parsed frame (`frame_obj` in `parse_frame`). -/
structure FrameObj where
  frameNumber : Nat
  timestamp : ℚ
  persons : List PersonObj
deriving DecidableEq

/-- True when the `smpl_obj` assembled from an `smpl` entry is non-empty,
i.e. at least one of the three keys is present. -/
def nonEmptySmpl (e : SmplEntry) : Bool :=
  e.global_orient.isSome || e.body_pose.isSome || e.betas.isSome

/-- The body of the per-person loop of `parse_frame`: builds the person
object for positional index `i` of frame dict `d`.  `cv` models the
external `compute_smpl_vertices`, `sf` the cached `smpl_faces`. -/
def mkPerson (cv : SmplEntry → Option (List (List ℚ)))
    (sf : Option (List (List Int))) (d : FrameDict) (i : Nat) : PersonObj :=
  let entry := d.smpl.getD i ⟨none, none, none⟩
  let pid : Int := if i < d.tid.length then d.tid.getD i 0 else (i : Int)
  let conf : ℚ := if i < d.conf.length then d.conf.getD i 0 else 1
  let cam : Option CamObj :=
    if i < d.camera.length then
      let cl := d.camera.getD i []
      if 3 ≤ cl.length then
        some ⟨cl.getD 0 0, cl.getD 1 0, cl.getD 2 0, 5000⟩
      else none
    else none
  let smplObj : Option SmplEntry := if nonEmptySmpl entry then some entry else none
  let fromSmpl : Option (List (List ℚ)) :=
    if nonEmptySmpl entry then cv entry else none
  let mv : Option (List (List ℚ)) :=
    if i < d.verts.length then some (d.verts.getD i []) else fromSmpl
  let mf : Option (List (List Int)) :=
    match sf with
    | some fcs => some fcs
    | none =>
      match d.faces with
      | [] => none
      | f0 :: _ => some f0
  { personId := pid, confidence := conf, tracked := true, camera := cam,
    smplData := smplObj, meshVertices := mv, meshFaces := mf }

/-- The frame object `parse_frame` builds for a dict-shaped record at
enumeration index `idx`: `frameNumber = idx`, `timestamp = idx / 30.0`,
and one person per entry of the `smpl` list. -/
def parseFrameDict (cv : SmplEntry → Option (List (List ℚ)))
    (sf : Option (List (List Int))) (d : FrameDict) (idx : Nat) : FrameObj :=
  { frameNumber := idx, timestamp := (idx : ℚ) / 30,
    persons := (List.range d.smpl.length).map (mkPerson cv sf d) }

/-- Shallow embedding of `parse_frame`: a non-dict record yields `none`,
a dict record yields the frame object above. -/
def parse_frame (cv : SmplEntry → Option (List (List ℚ)))
    (sf : Option (List (List Int))) (fd : FrameData) (idx : Nat) :
    Option FrameObj :=
  match fd with
  | FrameData.dict d => some (parseFrameDict cv sf d idx)
  | FrameData.other => none

/-- The frame loop of `parse_pickle_file`, starting at enumeration index
`idx`: each record is parsed at its index; a record whose parse yields no
frame object is dropped and the loop continues. -/
def parseFramesAux (cv : SmplEntry → Option (List (List ℚ)))
    (sf : Option (List (List Int))) (idx : Nat) :
    List FrameData → List FrameObj
  | [] => []
  | fd :: rest =>
    match parse_frame cv sf fd idx with
    | none => parseFramesAux cv sf (idx + 1) rest
    | some fr => fr :: parseFramesAux cv sf (idx + 1) rest

/-- The full frame loop of `parse_pickle_file` over a frame list. -/
def parseFrames (cv : SmplEntry → Option (List (List ℚ)))
    (sf : Option (List (List Int))) (frames : List FrameData) :
    List FrameObj :=
  parseFramesAux cv sf 0 frames

/-- Helper: the person list of a parsed dict frame, read at index `j`,
is the person built by the loop body for index `j`. -/
theorem parseFrameDict_persons_getElem
    (cv : SmplEntry → Option (List (List ℚ))) (sf : Option (List (List Int)))
    (d : FrameDict) (idx j : Nat) (h : j < d.smpl.length) :
    (parseFrameDict cv sf d idx).persons[j]? = some (mkPerson cv sf d j) := by
  simp [parseFrameDict, List.getElem?_map, List.getElem?_range, h]

/-- Helper: a person index beyond the `conf` list gets confidence 1. -/
theorem mkPerson_confidence_default
    (cv : SmplEntry → Option (List (List ℚ))) (sf : Option (List (List Int)))
    (d : FrameDict) (j : Nat) (h : d.conf.length ≤ j) :
    (mkPerson cv sf d j).confidence = 1 := by
  simp [mkPerson, Nat.not_lt.mpr h]

/-- Helper: a person index beyond the `tid` list gets its positional
index as person id. -/
theorem mkPerson_personId_default
    (cv : SmplEntry → Option (List (List ℚ))) (sf : Option (List (List Int)))
    (d : FrameDict) (j : Nat) (h : d.tid.length ≤ j) :
    (mkPerson cv sf d j).personId = (j : Int) := by
  simp [mkPerson, Nat.not_lt.mpr h]

/-- Helper: one step of the frame loop, written with `Option.toList`. -/
theorem parseFramesAux_cons
    (cv : SmplEntry → Option (List (List ℚ))) (sf : Option (List (List Int)))
    (fd : FrameData) (rest : List FrameData) (idx : Nat) :
    parseFramesAux cv sf idx (fd :: rest) =
      (parse_frame cv sf fd idx).toList ++
        parseFramesAux cv sf (idx + 1) rest := by
  cases h : parse_frame cv sf fd idx <;> simp [parseFramesAux, h]

/-- Helper: an unparsable record in the middle of the frame list is
dropped while every other record is parsed exactly as before. -/
theorem parseFramesAux_drop
    (cv : SmplEntry → Option (List (List ℚ))) (sf : Option (List (List Int)))
    (pre post : List FrameData) (idx : Nat) :
    parseFramesAux cv sf idx (pre ++ FrameData.other :: post) =
      parseFramesAux cv sf idx pre ++
        parseFramesAux cv sf (idx + pre.length + 1) post := by
  induction pre generalizing idx with
  | nil => simp [parseFramesAux, parse_frame]
  | cons fd rest ih =>
    have harith : idx + 1 + rest.length + 1 = idx + (fd :: rest).length + 1 := by
      simp only [List.length_cons]
      omega
    calc parseFramesAux cv sf idx ((fd :: rest) ++ FrameData.other :: post)
        = (parse_frame cv sf fd idx).toList ++
            parseFramesAux cv sf (idx + 1) (rest ++ FrameData.other :: post) := by
          rw [List.cons_append, parseFramesAux_cons]
      _ = (parse_frame cv sf fd idx).toList ++
            (parseFramesAux cv sf (idx + 1) rest ++
              parseFramesAux cv sf (idx + 1 + rest.length + 1) post) := by
          rw [ih (idx + 1)]
      _ = ((parse_frame cv sf fd idx).toList ++
            parseFramesAux cv sf (idx + 1) rest) ++
              parseFramesAux cv sf (idx + 1 + rest.length + 1) post := by
          rw [List.append_assoc]
      _ = parseFramesAux cv sf idx (fd :: rest) ++
            parseFramesAux cv sf (idx + (fd :: rest).length + 1) post := by
          rw [parseFramesAux_cons, harith]

/-- C7: the parser degrades gracefully: an unparsable (non-dict) record
anywhere in the frame list is dropped while all remaining records are
still parsed and returned at their original indices; a person missing a
`conf` entry gets the default confidence 1.0; a person missing a `tid`
entry gets its positional index as track id. -/
theorem parseFrames_graceful :
    (∀ (cv : SmplEntry → Option (List (List ℚ)))
       (sf : Option (List (List Int))) (pre post : List FrameData),
       parseFrames cv sf (pre ++ FrameData.other :: post) =
         parseFrames cv sf pre ++
           parseFramesAux cv sf (pre.length + 1) post) ∧
    (∀ (cv : SmplEntry → Option (List (List ℚ)))
       (sf : Option (List (List Int))) (d : FrameDict) (idx j : Nat),
       j < d.smpl.length → d.conf.length ≤ j →
       ((parseFrameDict cv sf d idx).persons[j]?).map PersonObj.confidence =
         some 1) ∧
    (∀ (cv : SmplEntry → Option (List (List ℚ)))
       (sf : Option (List (List Int))) (d : FrameDict) (idx j : Nat),
       j < d.smpl.length → d.tid.length ≤ j →
       ((parseFrameDict cv sf d idx).persons[j]?).map PersonObj.personId =
         some (j : Int)) := by
  refine ⟨?_, ?_, ?_⟩
  · intro cv sf pre post
    have h := parseFramesAux_drop cv sf pre post 0
    simpa [parseFrames] using h
  · intro cv sf d idx j hj hc
    rw [parseFrameDict_persons_getElem cv sf d idx j hj]
    simp [mkPerson_confidence_default cv sf d j hc]
  · intro cv sf d idx j hj ht
    rw [parseFrameDict_persons_getElem cv sf d idx j hj]
    simp [mkPerson_personId_default cv sf d j ht]

/-- Concrete instances used by the witnesses below: a trivial vertex
computation, no cached faces, and a frame dict with one person in the
`smpl` list but empty `conf` and `tid` lists. -/
def cvNone : SmplEntry → Option (List (List ℚ)) := fun _ => none

/-- Concrete frame dict: one `smpl` entry, all other per-person lists
empty. -/
def oneDict : FrameDict :=
  { smpl := [⟨none, none, none⟩], camera := [], conf := [], tid := [],
    verts := [], faces := [] }

/-- Witness for C7 at concrete inputs: a non-dict record between two
dict records is dropped while both dict records are returned, and the
single person of `oneDict` gets default confidence 1 and track id 0. -/
theorem parseFrames_graceful_witness :
    (parseFrames cvNone none
        ([FrameData.dict oneDict] ++ FrameData.other ::
          [FrameData.dict oneDict]) =
      parseFrames cvNone none [FrameData.dict oneDict] ++
        parseFramesAux cvNone none 2 [FrameData.dict oneDict]) ∧
    ((parseFrameDict cvNone none oneDict 0).persons[0]?).map
        PersonObj.confidence = some 1 ∧
    ((parseFrameDict cvNone none oneDict 0).persons[0]?).map
        PersonObj.personId = some (0 : Int) := by
  refine ⟨?_, ?_, ?_⟩
  · exact parseFrames_graceful.1 cvNone none [FrameData.dict oneDict]
      [FrameData.dict oneDict]
  · exact parseFrames_graceful.2.1 cvNone none oneDict 0 0 (by decide)
      (by decide)
  · exact parseFrames_graceful.2.2 cvNone none oneDict 0 0 (by decide)
      (by decide)

/-- C10: for every dict-shaped frame record the parser emits exactly as
many person entries as the length of the `smpl` list (regardless of how
long the `camera`/`conf`/`tid` lists are), and a non-dict record yields
`none` instead of raising. -/
theorem parse_frame_person_count
    (cv : SmplEntry → Option (List (List ℚ))) (sf : Option (List (List Int)))
    (d : FrameDict) (idx : Nat) :
    (parseFrameDict cv sf d idx).persons.length = d.smpl.length ∧
    parse_frame cv sf (FrameData.dict d) idx =
      some (parseFrameDict cv sf d idx) ∧
    parse_frame cv sf FrameData.other idx = none := by
  refine ⟨?_, rfl, rfl⟩
  simp [parseFrameDict]

/-- C5 counterexample: the claim says a FrameRecord's timestamp equals
`frameNumber / fps` of the source video; for a 60fps source at frame 1
that would be `1/60`, but the parser produces `1/30` — the fps is
hardcoded to 30 in `parse_frame` and never read from the video. -/
theorem parse_frame_timestamp_not_fps :
    (parseFrameDict cvNone none oneDict 1).timestamp = 1 / 30 ∧
      (parseFrameDict cvNone none oneDict 1).timestamp ≠ 1 / 60 := by
  constructor
  · rfl
  · intro h
    have : ((1 : ℚ) / 30) = 1 / 60 := by
      calc (1 : ℚ) / 30 = (parseFrameDict cvNone none oneDict 1).timestamp := rfl
        _ = 1 / 60 := h
    norm_num at this

/-- C5 amended: for every FrameRecord produced by the parser, the
timestamp is `frameNumber / 30.0` with the fps fixed at 30 regardless of
the source video (this agrees with `frameNumber / fps` only for 30fps
sources), and the frame number is the enumeration index. -/
theorem parse_frame_timestamp
    (cv : SmplEntry → Option (List (List ℚ))) (sf : Option (List (List Int)))
    (d : FrameDict) (idx : Nat) :
    (parseFrameDict cv sf d idx).timestamp = (idx : ℚ) / 30 ∧
      (parseFrameDict cv sf d idx).frameNumber = idx := by
  exact ⟨rfl, rfl⟩

/-!
Subprocess failure classification
(`process_video_subprocess` in
`backend/pose-service/flask_wrapper_minimal_safe.py`).

Captured output is modelled as a list of characters; substring scanning
(`'CUDA out of memory' in result.stderr`) is the contiguous-sublist test
below.
-/

/-- True when `p` is a prefix of `s` (character lists). -/
def listStarts (p s : List Char) : Bool :=
  match p, s with
  | [], _ => true
  | _ :: _, [] => false
  | a :: ps, b :: cs => a == b && listStarts ps cs

/-- True when `p` occurs as a contiguous substring of `s`: the embedding
of the Python `in` test on captured output. -/
def hasSub (p : List Char) : List Char → Bool
  | [] => listStarts p []
  | c :: cs => listStarts p (c :: cs) || hasSub p cs

/-- The error sub-classification values assigned to `error_type` by
`process_video_subprocess` on a non-zero worker exit. -/
inductive ErrType where
  | CUDA_OOM
  | OUT_OF_MEMORY
  | PYTHON_ERROR
  | SUBPROCESS_ERROR
deriving DecidableEq

/-- Shallow embedding of the non-zero-exit classification chain: CUDA
out of memory first, then a generic out-of-memory marker, then a Python
traceback marker, else the generic subprocess error. -/
def classify_stderr (s : List Char) : ErrType :=
  if hasSub "CUDA out of memory".toList s ||
      hasSub "RuntimeError: CUDA out of memory".toList s then
    ErrType.CUDA_OOM
  else if hasSub "OutOfMemoryError".toList s then
    ErrType.OUT_OF_MEMORY
  else if hasSub "Traceback".toList s then
    ErrType.PYTHON_ERROR
  else
    ErrType.SUBPROCESS_ERROR

/-- Modelled from the spec: the three-branch classification the claim
describes — resource exhaustion on `CUDA out of memory`, otherwise
worker-internal error on a traceback marker, otherwise the unknown
worker error — expressed over the code's `error_type` values. -/
def claimClassify (s : List Char) : ErrType :=
  if hasSub "CUDA out of memory".toList s then
    ErrType.CUDA_OOM
  else if hasSub "Traceback".toList s then
    ErrType.PYTHON_ERROR
  else
    ErrType.SUBPROCESS_ERROR

/-- The amended classification: like the claim's chain but with the
`OutOfMemoryError` branch of the code inserted between the CUDA check
and the traceback check. -/
def amendedClassify (s : List Char) : ErrType :=
  if hasSub "CUDA out of memory".toList s then
    ErrType.CUDA_OOM
  else if hasSub "OutOfMemoryError".toList s then
    ErrType.OUT_OF_MEMORY
  else if hasSub "Traceback".toList s then
    ErrType.PYTHON_ERROR
  else
    ErrType.SUBPROCESS_ERROR

/-- The structured error payload returned for a failed worker
(`error_details` with exit code and `error_type`). -/
structure ErrResp where
  exit_code : Int
  error_type : ErrType
deriving DecidableEq

/-- The exit handling of `process_video_subprocess`: a zero exit goes on
to artifact lookup, a non-zero exit returns the structured classified
error (the service replies with it instead of crashing). -/
def process_exit (rc : Int) (stderr : List Char) : Except ErrResp Unit :=
  if rc = 0 then Except.ok ()
  else Except.error { exit_code := rc, error_type := classify_stderr stderr }

/-- Helper: prefix test characterisation. -/
theorem listStarts_iff (p : List Char) :
    ∀ s, listStarts p s = true ↔ ∃ r, s = p ++ r := by
  induction p with
  | nil =>
    intro s
    simp [listStarts]
  | cons a ps ih =>
    intro s
    cases s with
    | nil =>
      simp [listStarts]
    | cons b cs =>
      constructor
      · intro h
        simp only [listStarts, Bool.and_eq_true, beq_iff_eq] at h
        obtain ⟨hab, h2⟩ := h
        obtain ⟨r, hr⟩ := (ih cs).mp h2
        exact ⟨r, by simp [List.cons_append, hab, hr]⟩
      · intro h
        obtain ⟨r, hr⟩ := h
        simp only [List.cons_append, List.cons.injEq] at hr
        obtain ⟨hba, hcs⟩ := hr
        simp only [listStarts, Bool.and_eq_true, beq_iff_eq]
        exact ⟨hba.symm, (ih cs).mpr ⟨r, hcs⟩⟩

/-- Helper: substring test characterisation. -/
theorem hasSub_iff (p : List Char) :
    ∀ s, hasSub p s = true ↔ ∃ l r, s = l ++ p ++ r := by
  intro s
  induction s with
  | nil =>
    constructor
    · intro h
      have h2 : ∃ r, ([] : List Char) = p ++ r := (listStarts_iff p []).mp h
      obtain ⟨r, hr⟩ := h2
      exact ⟨[], r, by simpa using hr⟩
    · intro h
      obtain ⟨l, r, hr⟩ := h
      have hl : l = [] ∧ p ++ r = [] := by
        constructor
        · cases l with
          | nil => rfl
          | cons x xs => simp at hr
        · cases l with
          | nil => simpa using hr.symm
          | cons x xs => simp at hr
      exact (listStarts_iff p []).mpr ⟨r, by rw [← hl.2]⟩
  | cons c cs ih =>
    simp only [hasSub, Bool.or_eq_true, listStarts_iff, ih]
    constructor
    · intro h
      cases h with
      | inl h =>
        obtain ⟨r, hr⟩ := h
        exact ⟨[], r, by simpa using hr⟩
      | inr h =>
        obtain ⟨l, r, hr⟩ := h
        exact ⟨c :: l, r, by simp [hr]⟩
    · intro h
      obtain ⟨l, r, hr⟩ := h
      cases l with
      | nil =>
        exact Or.inl ⟨r, by simpa using hr⟩
      | cons x xs =>
        simp only [List.cons_append, List.cons.injEq] at hr
        exact Or.inr ⟨xs, r, hr.2⟩

/-- Helper: a substring match of a concatenation gives a substring match
of its right part. -/
theorem hasSub_of_append (a b s : List Char)
    (h : hasSub (a ++ b) s = true) : hasSub b s = true := by
  obtain ⟨l, r, hr⟩ := (hasSub_iff (a ++ b) s).mp h
  refine (hasSub_iff b s).mpr ⟨l ++ a, r, ?_⟩
  rw [hr]
  simp [List.append_assoc]

/-- Helper: the `RuntimeError:`-prefixed CUDA pattern contains the bare
CUDA pattern, so the second disjunct of the code's first check is
subsumed by the first; the code's classifier therefore equals the
amended four-branch chain. -/
theorem classify_stderr_eq_amended (s : List Char) :
    classify_stderr s = amendedClassify s := by
  have hsplit : "RuntimeError: CUDA out of memory".toList =
      "RuntimeError: ".toList ++ "CUDA out of memory".toList := by decide
  cases hA : hasSub "CUDA out of memory".toList s with
  | true =>
    unfold classify_stderr amendedClassify
    rw [hA]
    simp
  | false =>
    have hB : hasSub "RuntimeError: CUDA out of memory".toList s = false := by
      cases hB : hasSub "RuntimeError: CUDA out of memory".toList s with
      | false => rfl
      | true =>
        rw [hsplit] at hB
        rw [hasSub_of_append _ _ _ hB] at hA
        exact absurd hA (by simp)
    unfold classify_stderr amendedClassify
    rw [hA, hB]
    simp

/-- Concrete captured output for the C4 counterexample: a generic (non
CUDA) out-of-memory failure whose output also carries a traceback. -/
def oomTracebackStderr : List Char :=
  "OutOfMemoryError: ran out of host memory\nTraceback (most recent call last):".toList

/-- C4 counterexample: on output containing `OutOfMemoryError` together
with a traceback marker (and no `CUDA out of memory`), the code
classifies the failure as its separate out-of-memory class, not as the
worker-internal-error class the claim's three-branch chain predicts. -/
theorem classify_stderr_claim_mismatch :
    classify_stderr oomTracebackStderr = ErrType.OUT_OF_MEMORY ∧
    claimClassify oomTracebackStderr = ErrType.PYTHON_ERROR ∧
    classify_stderr oomTracebackStderr ≠ claimClassify oomTracebackStderr := by
  refine ⟨by decide, by decide, by decide⟩

/-- C4 amended: on a non-zero worker exit the service returns a
structured error (it does not crash) whose cause is classified by the
four-branch chain: `CUDA out of memory` → the resource-exhaustion class
(taking precedence over a traceback marker), otherwise `OutOfMemoryError`
→ the out-of-memory class, otherwise a traceback marker → the
worker-internal-error class, otherwise the unknown-worker-error class. -/
theorem process_exit_classified (rc : Int) (s : List Char) (h : rc ≠ 0) :
    process_exit rc s =
      Except.error { exit_code := rc, error_type := amendedClassify s } := by
  simp [process_exit, h, classify_stderr_eq_amended]

/-- Witness for C4 at a concrete input: exit code 1 with a CUDA
out-of-memory message yields the structured resource-exhaustion error. -/
theorem process_exit_classified_witness :
    process_exit 1 "CUDA out of memory".toList =
      Except.error ⟨1, amendedClassify "CUDA out of memory".toList⟩ :=
  process_exit_classified 1 "CUDA out of memory".toList (by decide)

/-!
Admission controller (`pose_video` in
`backend/pose-service/flask_wrapper_minimal_safe.py`).

The module-level state is `subprocess_running` (the GPU-busy flag),
`request_queue` (a FIFO deque of pending job descriptors) and
`active_jobs` (the job-id → status table).  Two events mutate this state
under `subprocess_lock`:

* a submission: if the flag is set, the job is appended to the queue
  with table status `queued`; otherwise the flag is set and
  `process_video_subprocess` runs the job (which never enters the
  table);
* completion of the running job (the `finally` block): the flag is
  cleared and, if the queue is non-empty, its head is popped and its
  table status set to `processing` — but the popped job is NOT run and
  the flag is NOT re-set (the source logs
  "Next request queued but not auto-processed (would need async)").

The `dispatched` field records the jobs for which
`process_video_subprocess` is actually invoked.  Each event is executed
inside the lock, so an interleaved execution is a sequence of these
atomic events from the initial state.
-/

/-- A job status value stored in `active_jobs` by the admission path. -/
inductive JStatus where
  | queued
  | processing
deriving DecidableEq

/-- The controller state: GPU-busy flag, FIFO queue of pending job ids,
the `active_jobs` status table, and the list of jobs actually handed to
`process_video_subprocess`. -/
structure CtrlState where
  busy : Bool
  queue : List Nat
  jobs : List (Nat × JStatus)
  dispatched : List Nat
deriving DecidableEq

/-- The state before any request: flag clear, empty queue and table. -/
def initState : CtrlState :=
  { busy := false, queue := [], jobs := [], dispatched := [] }

/-- Update the status of job `j` in the table when present (the source
guards the update with `if next_request['job_id'] in active_jobs`). -/
def setStatus (jobs : List (Nat × JStatus)) (j : Nat) (st : JStatus) :
    List (Nat × JStatus) :=
  jobs.map (fun p => if p.1 = j then (p.1, st) else p)

/-- The submission event of `pose_video`: queue the job when the GPU is
busy, otherwise set the flag and run it. -/
def submitStep (jid : Nat) (s : CtrlState) : CtrlState :=
  if s.busy then
    { s with queue := s.queue ++ [jid], jobs := s.jobs ++ [(jid, JStatus.queued)] }
  else
    { s with busy := true, dispatched := s.dispatched ++ [jid] }

/-- The completion event (the `finally` block of `pose_video`): clear
the flag; if the queue is non-empty, pop its head and mark that job
`processing` in the table — without dispatching it and without
re-setting the flag. -/
def completeStep (s : CtrlState) : CtrlState :=
  match s.queue with
  | [] => { s with busy := false }
  | j :: rest =>
    { s with busy := false, queue := rest,
             jobs := setStatus s.jobs j JStatus.processing }

/-- One controller event. -/
inductive Ev where
  | submit (jid : Nat)
  | complete
deriving DecidableEq

/-- Execute one event. -/
def step (s : CtrlState) (e : Ev) : CtrlState :=
  match e with
  | Ev.submit jid => submitStep jid s
  | Ev.complete => completeStep s

/-- Execute a sequence of events from a state. -/
def runEvents (evs : List Ev) (s : CtrlState) : CtrlState :=
  evs.foldl step s

/-- The status the table reports for job `j`. -/
def statusOf (s : CtrlState) (j : Nat) : Option JStatus :=
  (s.jobs.find? (fun p => p.1 == j)).map Prod.snd

/-- The exclusivity invariant of the claim: at most one job in the table
reports status `processing`. -/
def exclusiveProcessing (s : CtrlState) : Bool :=
  (s.jobs.filter (fun p => p.2 == JStatus.processing)).length ≤ 1

/-- The event trace refuting C2: jobs 1–3 submitted (1 admitted, 2 and 3
queued), job 1 completes (2 is popped and marked processing but never
run), job 4 is submitted to the now-clear flag and completes (3 is
popped and marked processing as well). -/
def traceC2 : List Ev :=
  [Ev.submit 1, Ev.submit 2, Ev.submit 3, Ev.complete, Ev.submit 4,
   Ev.complete]

/-- C2: the exclusivity property fails on the code: after `traceC2` the
job table reports jobs 2 and 3 as `processing` simultaneously, because
the completion handoff marks the popped job `processing` without running
it or re-marking the GPU busy. -/
theorem two_jobs_processing :
    statusOf (runEvents traceC2 initState) 2 = some JStatus.processing ∧
    statusOf (runEvents traceC2 initState) 3 = some JStatus.processing ∧
    exclusiveProcessing (runEvents traceC2 initState) = false := by
  decide

/-- The event trace refuting C3: job 1 admitted, job 2 queued, job 1
completes. -/
def traceC3 : List Ev :=
  [Ev.submit 1, Ev.submit 2, Ev.complete]

/-- C3: on completion the controller does clear the flag and pop the
queue head, and it marks the popped job `processing` — but it never
dispatches it: after `traceC3` only job 1 was ever handed to
`process_video_subprocess`, while job 2 sits at status `processing`
forever, so queued jobs are not actually run in submission order. -/
theorem queued_job_never_dispatched :
    (runEvents traceC3 initState).busy = false ∧
    (runEvents traceC3 initState).queue = [] ∧
    statusOf (runEvents traceC3 initState) 2 = some JStatus.processing ∧
    (runEvents traceC3 initState).dispatched = [1] := by
  decide

/-!
Worker invocations (C6).

`process_video_subprocess` in `flask_wrapper_minimal_safe.py` invokes
`python track.py hydra.job.chdir=false hydra.output_subdir=null
hydra.run.dir=. video.source=<path>`; `TrackWrapper.process_video` in
`track_wrapper.py` invokes `python track.py video.source=<path>
video.output_dir=<dir> phalp.end_frame=<n> hydra.run.dir=.
hydra.output_subdir=null`.  Each argument is modelled by a tag naming
it; `video.source` and `video.output_dir` are path/resource arguments,
the `hydra.*` and `phalp.*` overrides are runtime-configuration
arguments.
-/

/-- The arguments appearing in the two worker invocations. -/
inductive WorkerArg where
  | pythonExe
  | trackScript
  | hydraJobChdir
  | hydraOutputSubdir
  | hydraRunDir
  | videoSource
  | videoOutputDir
  | phalpEndFrame
deriving DecidableEq

/-- True for runtime-configuration arguments. -/
def isConfigArg : WorkerArg → Bool
  | WorkerArg.hydraJobChdir => true
  | WorkerArg.hydraOutputSubdir => true
  | WorkerArg.hydraRunDir => true
  | WorkerArg.phalpEndFrame => true
  | _ => false

/-- True for path/resource arguments. -/
def isPathArg : WorkerArg → Bool
  | WorkerArg.videoSource => true
  | WorkerArg.videoOutputDir => true
  | _ => false

/-- The argument list built by `process_video_subprocess` in
`flask_wrapper_minimal_safe.py`. -/
def flaskWorkerArgs : List WorkerArg :=
  [WorkerArg.pythonExe, WorkerArg.trackScript, WorkerArg.hydraJobChdir,
   WorkerArg.hydraOutputSubdir, WorkerArg.hydraRunDir,
   WorkerArg.videoSource]

/-- The argument list built by `TrackWrapper.process_video` in
`track_wrapper.py`. -/
def trackWrapperArgs : List WorkerArg :=
  [WorkerArg.pythonExe, WorkerArg.trackScript, WorkerArg.videoSource,
   WorkerArg.videoOutputDir, WorkerArg.phalpEndFrame,
   WorkerArg.hydraRunDir, WorkerArg.hydraOutputSubdir]

/-- True when no runtime-configuration argument appears after a
path/resource argument, i.e. all configuration arguments precede all
path arguments. -/
def configsPrecedePaths : List WorkerArg → Bool
  | [] => true
  | a :: rest =>
    if isPathArg a then
      rest.all (fun b => !(isConfigArg b)) && configsPrecedePaths rest
    else
      configsPrecedePaths rest

/-- C6: the ordering contract holds for the `flask_wrapper_minimal_safe`
invocation but fails for the `TrackWrapper.process_video` invocation,
where `video.source` and `video.output_dir` precede the `hydra.*`
configuration overrides — the exact ordering the repository's own
argument-order test labels as wrong. -/
theorem worker_arg_order :
    configsPrecedePaths flaskWorkerArgs = true ∧
    configsPrecedePaths trackWrapperArgs = false := by
  decide
